import Mathlib

/-!
# Verification of the LFN Audio Toolkit core

Shallow embedding of the core of the `LFN_Audio_Toolkit_Production` sources
(`src/lfn_realtime_monitor.py` and `src/long_duration_recorder.py`) over exact
rational arithmetic, together with theorems settling the design claims about
the spectral analyzer, the alerting logic, the bounded capture queue, the
chunked correction filter, sample-rate negotiation, persistence error
handling, and the measurement decoder `_safe_float`.

Floating point values are modelled as exact rationals plus explicit
non-finite markers; external collaborators (the scipy spectrogram, the
base-10 logarithm, the Python `float` literal parser and `ast.literal_eval`)
enter as function parameters constrained only by hypotheses that are true of
the real collaborator.
-/

namespace LFNToolkit

/-- A Python/NumPy floating value as seen by the toolkit: a finite value
(held exactly as a rational) or one of the non-finite specials. -/
inductive PFloat where
  | finite (q : ℚ)
  | nan
  | inf
  | ninf
deriving DecidableEq, Repr

/-- `np.nan_to_num(x, nan=0.0, posinf=0.0, neginf=0.0)` applied to one sample
(`lfn_realtime_monitor.py` lines 254-257). -/
def nanToNum : PFloat → ℚ
  | .finite q => q
  | _ => 0

/-- `SPECTROGRAM_NPERSEG` (`lfn_realtime_monitor.py` line 62). -/
def SPECTROGRAM_NPERSEG : ℕ := 2048

/-- `LF_RANGE` (`lfn_realtime_monitor.py` line 51). -/
def LF_RANGE : ℚ × ℚ := (20, 100)

/-- `HF_RANGE` (`lfn_realtime_monitor.py` line 52). -/
def HF_RANGE : ℚ × ℚ := (20000, 24000)

/-- The additive floor `1e-10` used before taking the logarithm
(`lfn_realtime_monitor.py` line 274). -/
def dbFloor : ℚ := 1 / 10000000000

/-- Length of the leading run of entries equal to `v` (the plateau scan of
scipy's local-maxima search used by `scipy.signal.find_peaks`). -/
def plateauLen (v : ℚ) : List ℚ → ℕ
  | [] => 0
  | x :: xs => if x = v then plateauLen v xs + 1 else 0

/-- Fuelled core of scipy's `_local_maxima_1d`: `c` is the sample to the left
of the head of the list, `i` its index.  A peak is the midpoint of a plateau
that is strictly above both the sample before it and the first differing
sample after it; a plateau running to the end of the signal is not a peak.
The fuel is an upper bound on the recursion depth; `localMaxima` supplies
enough fuel that it never runs out. -/
def lmAuxF : ℕ → ℚ → ℕ → List ℚ → List ℕ
  | 0, _, _, _ => []
  | _ + 1, _, _, [] => []
  | fuel + 1, c, i, x :: rest =>
    if c < x then
      match rest.drop (plateauLen x rest) with
      | [] => []
      | y :: rest2 =>
        if y < x then
          (i + plateauLen x rest / 2) :: lmAuxF fuel y (i + plateauLen x rest + 2) rest2
        else lmAuxF fuel x (i + 1) rest
    else lmAuxF fuel x (i + 1) rest

/-- scipy `_local_maxima_1d`: indices of the strict local maxima of a signal
(plateau midpoints). -/
def localMaxima : List ℚ → List ℕ
  | [] => []
  | x :: rest => lmAuxF (rest.length + 1) x 1 rest

/-- Walk away from a peak of height `v`, through samples `≤ v`, tracking the
minimum; stop at the first sample strictly above `v` (scipy
`_peak_prominences` base search, one direction). -/
def walkMin (v : ℚ) : List ℚ → ℚ
  | [] => v
  | x :: rest => if v < x then v else min x (walkMin v rest)

/-- scipy `peak_prominences` for the peak at index `p` of `xs`
(no window length restriction, as in the monitor's `find_peaks` calls). -/
def prominenceAt (xs : List ℚ) (p : ℕ) : ℚ :=
  let v := xs.getD p 0
  v - max (walkMin v ((xs.take p).reverse)) (walkMin v (xs.drop (p + 1)))

/-- `scipy.signal.find_peaks(xs, prominence=minProm)`: local maxima whose
prominence is at least `minProm` (scipy keeps a peak when
`prominence_min <= prominences`). -/
def findPeaks (xs : List ℚ) (minProm : ℚ) : List ℕ :=
  (localMaxima xs).filter fun p => decide (minProm ≤ prominenceAt xs p)

/-- `np.max` over a list; the `0` default is never reached on the guarded
paths of the analyzer (numpy raises on an empty maximum instead). -/
def listMax : List ℚ → ℚ
  | [] => 0
  | x :: xs => xs.foldl max x

/-- Total number of scalar entries of a matrix (`ndarray.size`). -/
def specSize (rows : List (List ℚ)) : ℕ := (rows.map List.length).sum

/-- `peaks[np.argmax(xs[peaks])]`: among candidate indices, the first one
carrying the maximal value of `xs` (`lfn_realtime_monitor.py` lines 288, 308). -/
def strongestPeak (xs : List ℚ) : List ℕ → ℕ
  | [] => 0
  | p :: rest => rest.foldl (fun best q => if xs.getD best 0 < xs.getD q 0 then q else best) p

/-- Row index of the first occurrence (in row-major order) of the global
maximum of a matrix: `np.unravel_index(np.argmax(spec), spec.shape)[0]`
(`lfn_realtime_monitor.py` lines 292-293, 312-313). -/
def flatArgmaxRow (rows : List (List ℚ)) : ℕ :=
  rows.findIdx fun row => decide (listMax rows.flatten ∈ row)

/-- Restrict the frequency axis and the dB spectrogram to a band:
`mask = (f >= lo) & (f <= hi)`, `f[mask]`, `Sxx_db[mask, :]`
(`lfn_realtime_monitor.py` lines 277-279, 299-301). -/
def bandSelect (f : List ℚ) (rows : List (List ℚ)) (lo hi : ℚ) :
    List ℚ × List (List ℚ) :=
  let pairs := (f.zip rows).filter fun p => decide (lo ≤ p.1 ∧ p.1 ≤ hi)
  (pairs.map Prod.fst, pairs.map Prod.snd)

/-- Shared body of the per-band peak search (`lfn_realtime_monitor.py`
lines 282-294 and 304-314): prominence-filtered peaks over the
maximum-across-time profile, falling back to the global in-band maximum. -/
def bandPeakCore (bandFreqs : List ℚ) (bandRows : List (List ℚ)) : ℚ × ℚ :=
  let maxSpectrum := bandRows.map listMax
  let peaks := findPeaks maxSpectrum 3
  if peaks.isEmpty then
    (bandFreqs.getD (flatArgmaxRow bandRows) 0, listMax bandRows.flatten)
  else
    let pk := strongestPeak maxSpectrum peaks
    (bandFreqs.getD pk 0, maxSpectrum.getD pk 0)

/-- LFN band analysis (`lfn_realtime_monitor.py` lines 277-296); the guard is
`lfn_spec.size > 0`. -/
def bandPeakLF (f : List ℚ) (SxxDb : List (List ℚ)) : ℚ × ℚ :=
  let sel := bandSelect f SxxDb LF_RANGE.1 LF_RANGE.2
  if 0 < specSize sel.2 then bandPeakCore sel.1 sel.2 else (0, -100)

/-- Ultrasonic band analysis (`lfn_realtime_monitor.py` lines 299-316); the
guard is `hf_freqs.size > 0 and hf_spec.size > 0`. -/
def bandPeakHF (f : List ℚ) (SxxDb : List (List ℚ)) : ℚ × ℚ :=
  let sel := bandSelect f SxxDb HF_RANGE.1 HF_RANGE.2
  if 0 < sel.1.length ∧ 0 < specSize sel.2 then bandPeakCore sel.1 sel.2
  else (0, -100)

/-- A monitored band tag. -/
inductive Band where
  | lfn
  | ultrasonic
deriving DecidableEq, Repr

/-- An alert as persisted by `log_alert` (`lfn_realtime_monitor.py`
lines 172-204); the wall-clock timestamp and the formatted message string are
side effects outside the embedding. -/
structure AlertEvent where
  band : Band
  frequency : ℚ
  level : ℚ
deriving DecidableEq, Repr

/-- The alerts emitted for one analysis window (`lfn_realtime_monitor.py`
lines 318-332): at most one per band, fired on a strict comparison of the
band-max level against the band's threshold, LFN checked first. -/
def windowAlerts (lfnPeak lfnDb hfPeak hfDb lfnThr hfThr : ℚ) : List AlertEvent :=
  (if lfnThr < lfnDb then [⟨.lfn, lfnPeak, lfnDb⟩] else []) ++
    (if hfThr < hfDb then [⟨.ultrasonic, hfPeak, hfDb⟩] else [])

/-- Result of one call to `analyze_and_plot`: either the early return for a
block shorter than the spectrogram window (no peaks, no measurement row, no
alert), or the per-band peaks together with the alerts fired. -/
inductive AnalysisOutcome where
  | skipped
  | analyzed (lfnPeak lfnDb hfPeak hfDb : ℚ) (alerts : List AlertEvent)
deriving DecidableEq, Repr

/-- `np.max(np.abs(audio))` (`lfn_realtime_monitor.py` line 268). -/
def maxAbsVal (l : List ℚ) : ℚ := listMax (l.map fun q => |q|)

/-- The analysis core of `analyze_and_plot` (`lfn_realtime_monitor.py`
lines 232-332): sanitize non-finite samples to zero, skip blocks shorter
than `SPECTROGRAM_NPERSEG`, normalize by the peak absolute amplitude when it
is nonzero, compute the spectrogram (`spec`, an external collaborator
returning the frequency axis and the power matrix), convert to dB with the
`1e-10` floor (`log10` is the external base-10 logarithm), then run the two
band analyses and fire the alerts.  Plotting, file output and the database
insert that follow are side effects outside the returned value. -/
def analyzeAndPlot (spec : List ℚ → ℚ → List ℚ × List (List ℚ))
    (log10 : ℚ → ℚ) (lfnThr hfThr : ℚ) (audio0 : List PFloat) (sr : ℚ) :
    AnalysisOutcome :=
  let audio := audio0.map nanToNum
  if audio.length < SPECTROGRAM_NPERSEG then .skipped
  else
    let maxVal := maxAbsVal audio
    let audioN := if 0 < maxVal then audio.map (fun q => q / maxVal) else audio
    let fS := spec audioN sr
    let SxxDb := fS.2.map (List.map fun p => 10 * log10 (p + dbFloor))
    let lp := bandPeakLF fS.1 SxxDb
    let hp := bandPeakHF fS.1 SxxDb
    .analyzed lp.1 lp.2 hp.1 hp.2 (windowAlerts lp.1 lp.2 hp.1 hp.2 lfnThr hfThr)

/-! ## Chunked EMM6 correction filter (`long_duration_recorder.py` lines 191-226) -/

/-- One normalized second-order section (`a0 = 1`), as produced by
`scipy.signal.butter(..., output='sos')`. -/
structure SOSSection where
  b0 : ℚ
  b1 : ℚ
  b2 : ℚ
  a1 : ℚ
  a2 : ℚ
deriving DecidableEq, Repr

/-- `scipy.signal.sosfilt` (direct form II transposed) with explicit carried
state `(z1, z2)`. -/
def sosfiltAux (c : SOSSection) (z1 z2 : ℚ) : List ℚ → List ℚ
  | [] => []
  | x :: xs =>
    let y := c.b0 * x + z1
    y :: sosfiltAux c (c.b1 * x + z2 - c.a1 * y) (c.b2 * x - c.a2 * y) xs

/-- `scipy.signal.sosfilt(sos, x)`: the filter run from zero initial state
(the source never passes `zi`). -/
def sosfilt (c : SOSSection) (x : List ℚ) : List ℚ := sosfiltAux c 0 0 x

/-- The fixed high-pass stage designed once per call:
`signal.butter(2, 10, btype='highpass', fs=48000, output='sos')`
(`long_duration_recorder.py` line 203).  The five coefficients below are
dyadic rationals equal to the IEEE-754 doubles obtained from the standard
bilinear-transform design of that filter; they agree with scipy's output to
within a relative error of about `1e-15`, while every bound used in the
theorems below has slack of at least `1e-2`, so the statements are robust to
this representation. -/
def emm6Sos : SOSSection :=
  { b0 := 8998866042804505 / 9007199254740992
    b1 := -8998866042804505 / 4503599627370496
    b2 := 8998866042804505 / 9007199254740992
    a1 := -1124857773496867 / 562949953421312
    a2 := 8990540540527157 / 9007199254740992 }

/-- Fuelled chunk splitter; the fuel bounds the number of chunks and
`chunksOf` always supplies enough of it. -/
def chunksOfF (n : ℕ) : ℕ → List ℚ → List (List ℚ)
  | _, [] => []
  | 0, l => [l]
  | fuel + 1, x :: xs => (x :: xs).take n :: chunksOfF n fuel ((x :: xs).drop n)

/-- Split a signal into consecutive chunks of `chunkSize` samples (the last
chunk may be shorter): the loop
`for i in range(num_chunks): chunk = audio[ch, i*chunk_size : min(..., samples)]`
(`long_duration_recorder.py` lines 208-215).  `chunkSize = 0` cannot occur in
the source (it would divide by zero); the guard keeps the function total. -/
def chunksOf (n : ℕ) (l : List ℚ) : List (List ℚ) :=
  if n = 0 then [l] else chunksOfF n l.length l

/-- The per-chunk body (`long_duration_recorder.py` lines 217-224): a chunk is
filtered only when it holds more than 100 samples, and is passed through
unchanged otherwise.  The `except (ValueError, RuntimeError)` fallback cannot
trigger in exact arithmetic on a well-shaped chunk. -/
def filterChunk (c : SOSSection) (chunk : List ℚ) : List ℚ :=
  if 100 < chunk.length then sosfilt c chunk else chunk

/-- `_apply_emm6_correction_chunked` restricted to one channel: every chunk is
processed independently (each `signal.sosfilt` call starts from zero state —
no `zi` is threaded between chunks), and the outputs are written back into
the preallocated result array, i.e. concatenated. -/
def emm6ChunkedChannel (c : SOSSection) (chunkSize : ℕ) (x : List ℚ) : List ℚ :=
  ((chunksOf chunkSize x).map (filterChunk c)).flatten

/-- `_apply_emm6_correction_chunked` over a `(channels, samples)` array: the
chunk/channel double loop touches each channel independently; the
`audio.size == 0` early return returns the input, which coincides with the
map below on empty input. -/
def applyEmm6CorrectionChunked (c : SOSSection) (chunkSize : ℕ)
    (audio : List (List ℚ)) : List (List ℚ) :=
  audio.map (emm6ChunkedChannel c chunkSize)

/-- One-pass reference from the spec's words: "applying the correction filter
to the whole segment in one pass" — the same causal filter run once over the
whole channel. -/
def emm6OnePassChannel (c : SOSSection) (x : List ℚ) : List ℚ := sosfilt c x

/-! ## The Python `queue.Queue` model (`long_duration_recorder.py` line 49,
`lfn_realtime_monitor.py` line 69) -/

/-- A Python `queue.Queue`: per the `queue` module contract, `maxsize = 0`
means the queue is unbounded; a positive `maxsize` blocks `put` while
`len(items) >= maxsize`. -/
structure PyQueue (α : Type) where
  maxsize : ℕ
  items : List α
deriving DecidableEq, Repr

/-- One producer/consumer interaction with a queue. -/
inductive QOp (α : Type) where
  | put (a : α)
  | get
deriving DecidableEq, Repr

/-- Effect of one operation.  A `put` on a full bounded queue blocks the
producer: the queue content is unchanged (the item stays with the blocked
producer).  A `get` on an empty queue blocks likewise (`List.tail [] = []`). -/
def qStep {α : Type} (q : PyQueue α) : QOp α → PyQueue α
  | .put a =>
    if q.maxsize = 0 ∨ q.items.length < q.maxsize then
      ⟨q.maxsize, q.items ++ [a]⟩
    else q
  | .get => ⟨q.maxsize, q.items.tail⟩

/-- Run a sequence of queue operations. -/
def runQ {α : Type} (q : PyQueue α) (ops : List (QOp α)) : PyQueue α :=
  ops.foldl qStep q

/-- `self.audio_queue = queue.Queue(maxsize=10)`
(`long_duration_recorder.py` line 49); items abstracted to their frame
counts. -/
def recorderQueue : PyQueue ℕ := ⟨10, []⟩

/-- `audio_queue = queue.Queue()` (`lfn_realtime_monitor.py` line 69): the
default `maxsize` is `0`, i.e. unbounded. -/
def monitorQueue : PyQueue ℕ := ⟨0, []⟩

/-! ## Capture/consume state machine of the long-duration recorder
(`long_duration_recorder.py` lines 93-189) -/

/-- Shared state of one recording session: samples captured so far by the
producer, the frame counts of the blocks sitting in the bounded queue, and
the block currently held by the consumer (between `audio_queue.get` and the
`del audio_data, corrected_audio` that ends the iteration). -/
structure RecSt where
  captured : ℕ
  queued : List ℕ
  consuming : Option ℕ
deriving DecidableEq, Repr

/-- `current_segment_samples = min(samples_per_segment, remaining_samples)`
(`long_duration_recorder.py` lines 164-165). -/
def blockFrames (spseg total captured : ℕ) : ℕ := min spseg (total - captured)

/-- Interleaved steps of the capture worker and the segment consumer.
`capture` is one iteration of `_audio_capture_worker`'s loop (guarded by
`samples_captured < total_samples` and, through the blocking
`audio_queue.put` on a `maxsize=10` queue, by the queue not being full);
`dequeue` is `audio_queue.get` in `record_long_session`; `flush` is the end
of a consumer iteration (filter, `sf.write`, `del`). -/
inductive RecStep (spseg total : ℕ) : RecSt → RecSt → Prop
  | capture {s : RecSt} (hrec : s.captured < total) (hq : s.queued.length < 10) :
      RecStep spseg total s
        ⟨s.captured + blockFrames spseg total s.captured,
          s.queued ++ [blockFrames spseg total s.captured], s.consuming⟩
  | dequeue {s : RecSt} {b : ℕ} {rest : List ℕ}
      (h : s.queued = b :: rest) (hc : s.consuming = Option.none) :
      RecStep spseg total s ⟨s.captured, rest, some b⟩
  | flush {s : RecSt} {b : ℕ} (h : s.consuming = some b) :
      RecStep spseg total s ⟨s.captured, s.queued, Option.none⟩

/-- The initial state of a session: nothing captured, queue empty, consumer
idle. -/
def recInit : RecSt := ⟨0, [], Option.none⟩

/-- States a session can reach. -/
def RecReachable (spseg total : ℕ) (s : RecSt) : Prop :=
  Relation.ReflTransGen (RecStep spseg total) recInit s

/-- Frames of buffered-but-unflushed audio resident in the process: the queue
contents plus the block the consumer currently holds. -/
def residentFrames (s : RecSt) : ℕ := s.queued.sum + (s.consuming.getD 0)

/-- Bytes of resident audio for `ch` float32 channels. -/
def residentBytes (ch : ℕ) (s : RecSt) : ℕ := residentFrames s * ch * 4

/-- The per-segment byte budget
`segment_duration * sample_rate * channels * 4` quoted by the recorder's own
memory estimate (`long_duration_recorder.py` line 78). -/
def segmentBudgetBytes (spseg ch : ℕ) : ℕ := spseg * ch * 4

/-! ## Consumer loop reaction to events (`long_duration_recorder.py`
lines 93-125) -/

/-- Session flags read by one iteration of the consumer loop. -/
structure SessionState where
  isRecording : Bool
  segmentCount : ℕ
deriving DecidableEq, Repr

/-- What the `audio_queue.get(timeout=60)` call can yield: a block, the
`queue.Empty` timeout, or the `None` end-of-stream sentinel. -/
inductive ConsumerEvent where
  | gotBlock (frames : ℕ)
  | timeoutEmpty
  | endSignal
deriving DecidableEq, Repr

/-- Control outcome of one consumer-loop iteration: keep looping (with the
new state, and whether a warning was logged) or leave the loop. -/
inductive ConsumerStepResult where
  | keepWaiting (s : SessionState) (warned : Bool)
  | exitLoop (s : SessionState)
deriving DecidableEq, Repr

/-- One iteration of the consumer loop of `record_long_session`
(`long_duration_recorder.py` lines 94-125): the `while` guard is
`is_recording and segment_count < segments_needed`; a `queue.Empty` timeout
logs a warning and `continue`s; a `None` block `break`s; a real block is
filtered, written and counted. -/
def consumerStep (segmentsNeeded : ℕ) (s : SessionState) (e : ConsumerEvent) :
    ConsumerStepResult :=
  if s.isRecording ∧ s.segmentCount < segmentsNeeded then
    match e with
    | .timeoutEmpty => .keepWaiting s true
    | .endSignal => .exitLoop s
    | .gotBlock _ => .keepWaiting ⟨s.isRecording, s.segmentCount + 1⟩ false
  else .exitLoop s

/-! ## Sample-rate negotiation (`lfn_realtime_monitor.py` lines 49, 695-748) -/

/-- `SAMPLE_RATE = 44100`, the system default fallback rate
(`lfn_realtime_monitor.py` line 49). -/
def SAMPLE_RATE : ℚ := 44100

/-- The first two steps of `_build_rate_candidates`
(`lfn_realtime_monitor.py` lines 696-699): the requested rate when truthy,
then the system default.  No deduplication happens between these two. -/
def ratesBase (requested : Option ℚ) : List ℚ :=
  (match requested with
    | some r => if r ≠ 0 then [r] else []
    | Option.none => []) ++ [SAMPLE_RATE]

/-- `_build_rate_candidates` (`lfn_realtime_monitor.py` lines 695-704): the
device's reported default rate (`0` models a falsy/absent report) is appended
only when no earlier candidate is within 1 Hz of it
(`if not any(abs(device_default_sr - r) < 1 for r in rates)`). -/
def buildRateCandidates (requested : Option ℚ) (deviceDefault : ℚ) : List ℚ :=
  let rates := ratesBase requested
  if deviceDefault ≠ 0 ∧ rates.all (fun r => decide (1 ≤ |deviceDefault - r|)) then
    rates ++ [deviceDefault]
  else rates

/-- The candidate loop of `_attempt_stream` (`lfn_realtime_monitor.py`
lines 712-748): `ok r` abstracts "`sd.check_input_settings` accepts the
(device, rate, channels) triple and a trial stream opens, starts, stops and
closes"; the loop returns on the first success and otherwise records the
failure and tries the next candidate. -/
def attemptFirst (ok : ℚ → Bool) : List ℚ → Option ℚ
  | [] => Option.none
  | r :: rest => if ok r then some r else attemptFirst ok rest

/-! ## Exception flow for persistence failures (`lfn_realtime_monitor.py`
lines 172-204, 318-346, 667-685, 857-898) -/

/-- The Python exception classes relevant to the monitor's handlers.
`sqliteError` stands for `sqlite3.Error` (not a subclass of `OSError`). -/
inductive PyExc where
  | valueError
  | typeError
  | runtimeError
  | osError
  | sqliteError
  | overflowError
  | portAudioError
deriving DecidableEq, Repr

/-- The classes caught by `analyze_and_plot`'s only handler
(`except (ValueError, TypeError, RuntimeError, OSError)`, line 667). -/
def analysisHandlerCatches : PyExc → Bool
  | .valueError | .typeError | .runtimeError | .osError => true
  | _ => false

/-- The classes caught around the `analyze_and_plot` call inside
`record_loop`'s while loop (`except ValueError` and
`except (TypeError, RuntimeError, OSError)`, lines 886-892). -/
def recordLoopInnerCatches : PyExc → Bool
  | .valueError | .typeError | .runtimeError | .osError => true
  | _ => false

/-- The classes caught by `record_loop`'s outer handlers
(`except sd.PortAudioError` and `except (OSError, RuntimeError)`,
lines 893-898). -/
def recordLoopOuterCatches : PyExc → Bool
  | .portAudioError | .osError | .runtimeError => true
  | _ => false

/-- `log_alert` (`lfn_realtime_monitor.py` lines 172-204): the database
insert (lines 174-185) is not inside any `try`, so an `sqlite3.Error` from an
unavailable store propagates; the JSON file write is guarded
(`except (OSError, IOError, TypeError)`, lines 198-202), so a file failure
only logs a warning. -/
def logAlertModel (dbOk fileOk : Bool) : Except PyExc Unit :=
  if dbOk then
    let _ := fileOk
    .ok ()
  else .error .sqliteError

/-- The persistence portion of one `analyze_and_plot` body: the alert writes
(when a threshold was exceeded) followed by the unguarded `live_logs`
measurement insert (lines 335-346). -/
def analyzePersist (alertNeeded dbOk fileOk : Bool) : Except PyExc Unit :=
  match (if alertNeeded then logAlertModel dbOk fileOk else .ok ()) with
  | .error e => .error e
  | .ok _ => if dbOk then .ok () else .error .sqliteError

/-- `analyze_and_plot` as seen by its caller: exceptions from the body are
absorbed only when `analysisHandlerCatches` them (the fallback insert inside
that handler is itself wrapped in `except sqlite3.Error`, lines 671-685, and
cannot raise). -/
def analyzeAndPlotExcOutcome (alertNeeded dbOk fileOk : Bool) : Except PyExc Unit :=
  match analyzePersist alertNeeded dbOk fileOk with
  | .ok _ => .ok ()
  | .error e => if analysisHandlerCatches e then .ok () else .error e

/-- Fate of the monitoring session after one analysis window. -/
inductive LoopFate where
  | continues
  | stopsMonitoring (e : PyExc)
  | threadDies (e : PyExc)
deriving DecidableEq, Repr

/-- One pass of `record_loop`'s analysis call with its two handler layers:
an uncaught exception escapes `record_loop` and kills the monitor thread
(capture stops); the outer handlers set `monitoring = False` (capture also
stops, but deliberately). -/
def recordLoopFate (alertNeeded dbOk fileOk : Bool) : LoopFate :=
  match analyzeAndPlotExcOutcome alertNeeded dbOk fileOk with
  | .ok _ => .continues
  | .error e =>
    if recordLoopInnerCatches e then .continues
    else if recordLoopOuterCatches e then .stopsMonitoring e
    else .threadDies e

/-! ## `_safe_float` (`lfn_realtime_monitor.py` lines 75-101) -/

/-- A value coming out of the SQLite measurement store. -/
inductive PyVal where
  | none
  | int (z : ℤ)
  | float (x : PFloat)
  | npFloating (x : PFloat)
  | bytes (bs : List ℕ)
  | str (s : String)
deriving DecidableEq, Repr

/-- CPython `float(int)` raises `OverflowError` exactly when the integer
rounds (to nearest, ties to even) beyond the largest finite double, i.e. when
its magnitude reaches `2^1024 - 2^970`. -/
def floatOverflowBound : ℤ := 2 ^ 1024 - 2 ^ 970

/-- CPython `float(z)` for `z : int` (value kept exactly; the rounding of the
magnitude to 53 bits does not affect any claim below). -/
def pyFloatOfInt (z : ℤ) : Except PyExc PFloat :=
  if floatOverflowBound ≤ |z| then .error .overflowError else .ok (.finite z)

/-- Decode a little-endian IEEE-754 binary32 from four bytes. -/
def decodeF32 (c0 c1 c2 c3 : ℕ) : PFloat :=
  let bits : ℕ := c0 % 256 + 256 * (c1 % 256) + 65536 * (c2 % 256) + 16777216 * (c3 % 256)
  let neg : Bool := bits / 2 ^ 31 = 1
  let expo : ℕ := bits / 2 ^ 23 % 2 ^ 8
  let frac : ℕ := bits % 2 ^ 23
  let sign : ℚ := if neg then -1 else 1
  if expo = 255 then
    if frac = 0 then (if neg then .ninf else .inf) else .nan
  else if expo = 0 then .finite (sign * (frac : ℚ) / 2 ^ 149)
  else .finite (sign * ((2 ^ 23 + frac : ℕ) : ℚ) * (2 : ℚ) ^ expo / 2 ^ 150)

/-- `np.frombuffer(value, dtype=np.float32, count=1)[0]`: raises `ValueError`
when the buffer holds fewer than 4 bytes, otherwise decodes the first four
bytes. -/
def npFrombufferF32 (bs : List ℕ) : Except PyExc PFloat :=
  match bs with
  | c0 :: c1 :: c2 :: c3 :: _ => .ok (decodeF32 c0 c1 c2 c3)
  | _ => .error .valueError

/-- Outcome of `ast.literal_eval` on a string that starts with a bytes-quote:
a bytes literal, or some other valid literal (for example `"b'aaaa',"`, which
evaluates to a tuple). -/
inductive LitResult where
  | bytesLit (bs : List ℕ)
  | otherLit
deriving DecidableEq, Repr

/-- `value.startswith("b'") or value.startswith('b"')`. -/
def isBytesPrefixed (s : String) : Bool :=
  s.startsWith "b\x27" || s.startsWith "b\x22"

/-- `_safe_float` (`lfn_realtime_monitor.py` lines 75-101).  The two Python
collaborators are parameters: `pfloat` models `float(str)` (which raises only
`ValueError`, modelled as `Option.none` and caught by the source), and
`leval` models `ast.literal_eval` (its `ValueError`/`SyntaxError` failures
are `Option.none` and caught; a successful non-bytes literal makes
`np.frombuffer` raise an uncaught `TypeError`). -/
def safeFloat (pfloat : String → Option PFloat) (leval : String → Option LitResult) :
    PyVal → Except PyExc PFloat
  | .none => .ok .nan
  | .int z => pyFloatOfInt z
  | .float x => .ok x
  | .npFloating x => .ok x
  | .bytes bs =>
    match npFrombufferF32 bs with
    | .ok v => .ok v
    | .error _ => .ok .nan
  | .str s =>
    let val := s.trim
    if val = "" then .ok .nan
    else if isBytesPrefixed val then
      match leval val with
      | Option.none => .ok .nan
      | some (.bytesLit bs) =>
        match npFrombufferF32 bs with
        | .ok v => .ok v
        | .error _ => .ok .nan
      | some .otherLit => .error .typeError
    else
      match pfloat val with
      | some v => .ok v
      | Option.none => .ok .nan

/-! ## Helper lemmas -/

/-- Folding `max` over a list of copies of the seed returns the seed. -/
theorem foldl_max_all_eq {l : List ℚ} {v : ℚ} (h : ∀ x ∈ l, x = v) :
    l.foldl max v = v := by
  induction l with
  | nil => rfl
  | cons x xs ih =>
    have hx : x = v := h x (List.mem_cons_self x xs)
    have hxs : ∀ y ∈ xs, y = v := fun y hy => h y (List.mem_cons_of_mem x hy)
    simp [hx, ih hxs]

/-- `np.max` of a nonempty constant list is that constant. -/
theorem listMax_all_eq {l : List ℚ} {v : ℚ} (hne : l ≠ []) (h : ∀ x ∈ l, x = v) :
    listMax l = v := by
  cases l with
  | nil => exact absurd rfl hne
  | cons x xs =>
    have hx : x = v := h x (List.mem_cons_self x xs)
    have hxs : ∀ y ∈ xs, y = v := fun y hy => h y (List.mem_cons_of_mem x hy)
    simp [listMax, hx, foldl_max_all_eq hxs]

/-- The local-maxima scan finds nothing on a constant signal. -/
theorem lmAuxF_all_eq {v : ℚ} :
    ∀ (fuel : ℕ) (l : List ℚ) (i : ℕ), (∀ x ∈ l, x = v) → lmAuxF fuel v i l = [] := by
  intro fuel
  induction fuel with
  | zero => intro l i _; rfl
  | succ fuel ih =>
    intro l i h
    cases l with
    | nil => rfl
    | cons x xs =>
      have hx : x = v := h x (List.mem_cons_self x xs)
      have hxs : ∀ y ∈ xs, y = v := fun y hy => h y (List.mem_cons_of_mem x hy)
      subst hx
      simp only [lmAuxF, lt_self_iff_false, if_false]
      exact ih xs (i + 1) hxs

/-- scipy's local maxima of a constant signal: none. -/
theorem localMaxima_all_eq {l : List ℚ} {v : ℚ} (h : ∀ x ∈ l, x = v) :
    localMaxima l = [] := by
  cases l with
  | nil => rfl
  | cons x xs =>
    have hx : x = v := h x (List.mem_cons_self x xs)
    have hxs : ∀ y ∈ xs, y = v := fun y hy => h y (List.mem_cons_of_mem x hy)
    subst hx
    exact lmAuxF_all_eq _ xs 1 hxs

/-- Depth evolution under one queue operation: a positive-capacity queue
never grows past its capacity, and the capacity itself never changes. -/
theorem qStep_invariant {α : Type} (q : PyQueue α) (op : QOp α)
    (hpos : 0 < q.maxsize) (h : q.items.length ≤ q.maxsize) :
    (qStep q op).items.length ≤ q.maxsize ∧ (qStep q op).maxsize = q.maxsize := by
  cases op with
  | put a =>
    by_cases hfull : q.maxsize = 0 ∨ q.items.length < q.maxsize
    · have hlt : q.items.length < q.maxsize := by
        rcases hfull with h0 | hlt
        · omega
        · exact hlt
      constructor
      · simp only [qStep, if_pos hfull, List.length_append, List.length_cons,
          List.length_nil]
        omega
      · simp [qStep, hfull]
    · constructor
      · simp only [qStep, if_neg hfull]
        exact h
      · simp [qStep, hfull]
  | get =>
    constructor
    · simp only [qStep]
      have htail : q.items.tail.length ≤ q.items.length := by
        cases q.items <;> simp
      omega
    · rfl

/-- Running any operation sequence preserves the depth bound of a
positive-capacity queue. -/
theorem runQ_bounded {α : Type} (ops : List (QOp α)) :
    ∀ (q : PyQueue α), 0 < q.maxsize → q.items.length ≤ q.maxsize →
      (runQ q ops).items.length ≤ q.maxsize := by
  induction ops with
  | nil => intro q _ h; exact h
  | cons op rest ih =>
    intro q hpos h
    have step := qStep_invariant q op hpos h
    have := ih (qStep q op) (step.2 ▸ hpos) (step.2 ▸ step.1)
    simpa [runQ, step.2] using this

/-- C3, counterexample: the real-time monitor's queue is constructed with
`maxsize = 0`, i.e. unbounded — after 11 producer pushes its depth is 11,
while the recorder's construction-fixed capacity of 10 caps the same push
sequence at depth 10.  No capacity fixed at the monitor queue's construction
bounds its depth. -/
theorem monitor_queue_unbounded_cex :
    monitorQueue.maxsize = 0 ∧
    (runQ monitorQueue (List.replicate 11 (QOp.put 0))).items.length = 11 ∧
    (runQ recorderQueue (List.replicate 11 (QOp.put 0))).items.length = 10 := by
  refine ⟨rfl, by decide, by decide⟩

/-- C3, amended: the long-duration recorder's queue is constructed with fixed
capacity 10 and, whatever interleaving of puts and gets occurs, its depth
never exceeds 10 (a put on a full queue blocks the producer instead of
growing the queue); the monitor's queue carries no such bound. -/
theorem recorder_queue_depth_bounded (ops : List (QOp ℕ)) :
    (runQ recorderQueue ops).items.length ≤ 10 :=
  runQ_bounded ops recorderQueue (by decide) (by decide)

/-- C4: a persistence failure during the alert insert (`log_alert` has no
handler around its `INSERT INTO alerts`) or during the `live_logs`
measurement insert raises `sqlite3.Error`, which none of `analyze_and_plot`'s
handler (`ValueError/TypeError/RuntimeError/OSError`), `record_loop`'s inner
handlers, or `record_loop`'s outer handlers
(`sd.PortAudioError`, `OSError/RuntimeError`) catches: the exception escapes
`record_loop` and the monitor thread dies, stopping capture — contradicting
the claim.  A failure of the JSON alert-log *file* write, by contrast, is
caught and capture continues. -/
theorem db_write_failure_kills_monitor :
    recordLoopFate true false true = .threadDies .sqliteError ∧
    recordLoopFate false false true = .threadDies .sqliteError ∧
    recordLoopFate true true false = .continues := by decide

/-- C9: while the session is still active (`is_recording` true and segments
remain), a `queue.Empty` timeout of the consumer's `audio_queue.get` logs a
warning and continues the loop with unchanged state; it never terminates the
session by itself. -/
theorem queue_timeout_nonfatal (needed : ℕ) (s : SessionState)
    (hrec : s.isRecording = true) (hseg : s.segmentCount < needed) :
    consumerStep needed s .timeoutEmpty = .keepWaiting s true := by
  simp [consumerStep, hrec, hseg]

/-- Witness for `queue_timeout_nonfatal` at a concrete active session. -/
theorem queue_timeout_nonfatal_witness :
    consumerStep 3 ⟨true, 0⟩ .timeoutEmpty = .keepWaiting ⟨true, 0⟩ true :=
  queue_timeout_nonfatal 3 ⟨true, 0⟩ rfl (by norm_num)

/-- C10, counterexample: `_safe_float` applied to the Python integer
`10 ^ 400` calls `float(value)`, which raises an uncaught `OverflowError`
(the magnitude exceeds the largest finite double), so the function neither
returns a float nor maps the value to NaN. -/
theorem safe_float_overflow_cex :
    safeFloat (fun _ => Option.none) (fun _ => Option.none) (.int (10 ^ 400)) =
      .error .overflowError := by
  norm_num [safeFloat, pyFloatOfInt, floatOverflowBound]

/-- C10, amended: `_safe_float` returns a value (never raises) for `None`,
floats, numpy floats, byte blobs, for every `int` below the double-overflow
magnitude, and for every string that is not a bytes-quoted literal evaluating
to a non-bytes value; `None`, the empty string, unparseable text and
too-short byte blobs all map to NaN. -/
theorem safe_float_total_amended (pfloat : String → Option PFloat)
    (leval : String → Option LitResult) (v : PyVal)
    (hint : ∀ z, v = .int z → |z| < floatOverflowBound)
    (hstr : ∀ s, v = .str s → isBytesPrefixed s.trim = true →
      leval s.trim ≠ some .otherLit) :
    (∃ r, safeFloat pfloat leval v = .ok r) ∧
    (v = .none → safeFloat pfloat leval v = .ok .nan) ∧
    (∀ s, v = .str s → s.trim = "" → safeFloat pfloat leval v = .ok .nan) ∧
    (∀ s, v = .str s → s.trim ≠ "" → isBytesPrefixed s.trim = false →
      pfloat s.trim = Option.none → safeFloat pfloat leval v = .ok .nan) ∧
    (∀ bs, v = .bytes bs → bs.length < 4 → safeFloat pfloat leval v = .ok .nan) := by
  refine ⟨?_, ?_, ?_, ?_, ?_⟩
  · cases v with
    | none => exact ⟨.nan, rfl⟩
    | int z =>
      have hz := hint z rfl
      refine ⟨.finite z, ?_⟩
      simp [safeFloat, pyFloatOfInt, not_le.mpr hz]
    | float x => exact ⟨x, rfl⟩
    | npFloating x => exact ⟨x, rfl⟩
    | bytes bs =>
      match bs with
      | c0 :: c1 :: c2 :: c3 :: rest => exact ⟨decodeF32 c0 c1 c2 c3, rfl⟩
      | [] => exact ⟨.nan, rfl⟩
      | [c0] => exact ⟨.nan, rfl⟩
      | [c0, c1] => exact ⟨.nan, rfl⟩
      | [c0, c1, c2] => exact ⟨.nan, rfl⟩
    | str s =>
      by_cases hempty : s.trim = ""
      · exact ⟨.nan, by simp [safeFloat, hempty]⟩
      by_cases hpre : isBytesPrefixed s.trim
      · have hne := hstr s rfl hpre
        match hl : leval s.trim with
        | Option.none => exact ⟨.nan, by simp [safeFloat, hempty, hpre, hl]⟩
        | some (.bytesLit bs) =>
          match bs with
          | c0 :: c1 :: c2 :: c3 :: rest =>
            exact ⟨decodeF32 c0 c1 c2 c3, by simp [safeFloat, hempty, hpre, hl, npFrombufferF32]⟩
          | [] => exact ⟨.nan, by simp [safeFloat, hempty, hpre, hl, npFrombufferF32]⟩
          | [c0] => exact ⟨.nan, by simp [safeFloat, hempty, hpre, hl, npFrombufferF32]⟩
          | [c0, c1] => exact ⟨.nan, by simp [safeFloat, hempty, hpre, hl, npFrombufferF32]⟩
          | [c0, c1, c2] => exact ⟨.nan, by simp [safeFloat, hempty, hpre, hl, npFrombufferF32]⟩
        | some .otherLit => exact absurd hl hne
      · match hp : pfloat s.trim with
        | some w => exact ⟨w, by simp [safeFloat, hempty, hpre, hp]⟩
        | Option.none => exact ⟨.nan, by simp [safeFloat, hempty, hpre, hp]⟩
  · rintro rfl; rfl
  · rintro s rfl hempty
    simp [safeFloat, hempty]
  · rintro s rfl hne hpre hp
    simp [safeFloat, hne, hpre, hp]
  · rintro bs rfl hlen
    match bs, hlen with
    | [], _ => rfl
    | [c0], _ => rfl
    | [c0, c1], _ => rfl
    | [c0, c1, c2], _ => rfl

/-- Witness for `safe_float_total_amended` at the concrete input `None`. -/
theorem safe_float_total_amended_witness :
    (∃ r, safeFloat (fun _ => Option.none) (fun _ => Option.none) .none = .ok r) ∧
    safeFloat (fun _ => Option.none) (fun _ => Option.none) .none = .ok .nan := by
  have h := safe_float_total_amended (fun _ => Option.none) (fun _ => Option.none)
    .none (by intro z hz; cases hz) (by intro s hs; cases hs)
  exact ⟨h.1, h.2.1 rfl⟩

/-- The candidate loop returns exactly the first candidate that succeeds. -/
theorem attemptFirst_eq_find? (ok : ℚ → Bool) :
    ∀ l : List ℚ, attemptFirst ok l = l.find? ok := by
  intro l
  induction l with
  | nil => rfl
  | cons r rest ih =>
    by_cases h : ok r
    · simp [attemptFirst, List.find?, h]
    · simp only [attemptFirst, List.find?, h, if_neg]
      simp only [Bool.false_eq_true, if_false]
      exact ih

/-- C5, counterexample: with a requested rate of 44100 Hz (equal to the
system default `SAMPLE_RATE = 44100`) and a device default of 48000 Hz, the
candidate list is `[44100, 44100, 48000]` — the requested rate and the system
default are 0 Hz apart yet both retained, so near-equal candidates are not
deduplicated as the claim states. -/
theorem rate_candidates_duplicate_cex :
    buildRateCandidates (some 44100) 48000 = [44100, 44100, 48000] ∧
    (buildRateCandidates (some 44100) 48000).count (44100 : ℚ) = 2 := by
  constructor
  · norm_num [buildRateCandidates, ratesBase, SAMPLE_RATE]
  · norm_num [buildRateCandidates, ratesBase, SAMPLE_RATE, List.count_cons]

/-- C5, amended: the candidate list is the requested rate (when present and
nonzero) followed by the system default 44100 Hz, with the device's reported
default appended only when it is nonzero and at least 1 Hz away from every
earlier candidate (only the device default is deduplicated); candidates are
then tried in order and the first success determines the stream's rate. -/
theorem negotiation_order_and_first_success (requested : Option ℚ) (dd : ℚ)
    (ok : ℚ → Bool) :
    attemptFirst ok (buildRateCandidates requested dd) =
      (buildRateCandidates requested dd).find? ok ∧
    (∀ r, requested = some r → r ≠ 0 →
      (buildRateCandidates requested dd).head? = some r) ∧
    SAMPLE_RATE ∈ buildRateCandidates requested dd ∧
    ((dd ≠ 0 ∧ ∀ r ∈ ratesBase requested, 1 ≤ |dd - r|) →
      buildRateCandidates requested dd = ratesBase requested ++ [dd]) ∧
    (¬(dd ≠ 0 ∧ ∀ r ∈ ratesBase requested, 1 ≤ |dd - r|) →
      buildRateCandidates requested dd = ratesBase requested) := by
  have hcond : (dd ≠ 0 ∧ (ratesBase requested).all (fun r => decide (1 ≤ |dd - r|))) ↔
      (dd ≠ 0 ∧ ∀ r ∈ ratesBase requested, 1 ≤ |dd - r|) := by
    simp [List.all_eq_true]
  refine ⟨attemptFirst_eq_find? ok _, ?_, ?_, ?_, ?_⟩
  · rintro r rfl hr
    simp only [buildRateCandidates, ratesBase, if_pos hr]
    split
    · rfl
    · rfl
  · have hbase : SAMPLE_RATE ∈ ratesBase requested := by
      simp [ratesBase]
    simp only [buildRateCandidates]
    split
    · exact List.mem_append_left _ hbase
    · exact hbase
  · intro hyes
    simp only [buildRateCandidates, if_pos (hcond.mpr hyes)]
  · intro hno
    simp only [buildRateCandidates, if_neg (fun hc => hno (hcond.mp hc))]

/-- Witness for `negotiation_order_and_first_success`: a requested 22050 Hz
with device default 48000 Hz, where only 48000 Hz passes the probe. -/
theorem negotiation_order_and_first_success_witness :
    attemptFirst (fun r => decide (r = 48000)) (buildRateCandidates (some 22050) 48000) =
      (buildRateCandidates (some 22050) 48000).find? (fun r => decide (r = 48000)) ∧
    (buildRateCandidates (some 22050) 48000).head? = some 22050 := by
  have h := negotiation_order_and_first_success (some 22050) 48000
    (fun r => decide (r = 48000))
  exact ⟨h.1, h.2.1 22050 rfl (by norm_num)⟩

/-- C8: any audio block with fewer samples than the spectrogram window
(`SPECTROGRAM_NPERSEG = 2048`) makes `analyze_and_plot` return at the early
guard: no peaks are computed, no measurement or alert is recorded, and no
error is raised. -/
theorem short_block_skipped (spec : List ℚ → ℚ → List ℚ × List (List ℚ))
    (log10 : ℚ → ℚ) (lfnThr hfThr sr : ℚ) (audio : List PFloat)
    (h : audio.length < SPECTROGRAM_NPERSEG) :
    analyzeAndPlot spec log10 lfnThr hfThr audio sr = .skipped := by
  simp only [analyzeAndPlot, List.length_map]
  rw [if_pos h]

/-- Witness for `short_block_skipped` on a one-sample block. -/
theorem short_block_skipped_witness :
    analyzeAndPlot (fun _ _ => ([], [])) (fun _ => 0) 45 50 [.finite 1] 44100 =
      .skipped :=
  short_block_skipped (fun _ _ => ([], [])) (fun _ => 0) 45 50 44100 [.finite 1]
    (by norm_num [SPECTROGRAM_NPERSEG])

/-- Sum of a list of naturals, each at most `n`, is at most `length * n`. -/
theorem sum_le_length_mul {l : List ℕ} {n : ℕ} (h : ∀ b ∈ l, b ≤ n) :
    l.sum ≤ l.length * n := by
  induction l with
  | nil => simp
  | cons b rest ih =>
    have hb : b ≤ n := h b (List.mem_cons_self b rest)
    have hrest : rest.sum ≤ rest.length * n :=
      ih fun x hx => h x (List.mem_cons_of_mem b hx)
    simp only [List.sum_cons, List.length_cons]
    calc b + rest.sum ≤ n + rest.length * n := Nat.add_le_add hb hrest
      _ = (rest.length + 1) * n := by ring

/-- Structural invariant of a recording session: every block (queued or being
consumed) holds at most one segment of frames, and the queue holds at most
10 blocks. -/
theorem recSession_invariant (spseg total : ℕ) (s : RecSt)
    (h : RecReachable spseg total s) :
    (∀ b ∈ s.queued, b ≤ spseg) ∧ s.queued.length ≤ 10 ∧
      (∀ b, s.consuming = some b → b ≤ spseg) := by
  induction h with
  | refl => simp [recInit]
  | tail hsteps hstep ih =>
    rcases ih with ⟨ihq, ihlen, ihc⟩
    cases hstep with
    | capture hrec hq =>
      refine ⟨?_, ?_, ihc⟩
      · intro b hb
        rcases List.mem_append.mp hb with hb | hb
        · exact ihq b hb
        · have hbeq := List.mem_singleton.mp hb
          exact hbeq ▸ min_le_left _ _
      · simp only [List.length_append, List.length_cons, List.length_nil]
        omega
    | dequeue hqueue hcons =>
      rename_i b rest
      refine ⟨?_, ?_, ?_⟩
      · intro x hx
        exact ihq x (hqueue ▸ List.mem_cons_of_mem b hx)
      · have hlen : (b :: rest).length ≤ 10 := hqueue ▸ ihlen
        simp only [List.length_cons] at hlen
        show rest.length ≤ 10
        omega
      · intro x hx
        have hxb : b = x := by simpa using hx
        exact hxb ▸ ihq b (by rw [hqueue]; exact List.mem_cons_self b rest)
    | flush hcons =>
      exact ⟨ihq, ihlen, fun x hx => by cases hx⟩

/-- C6, amended: per iteration the capture worker enqueues a block of
`min(samples_per_segment, remaining)` frames, never more than
`segment_duration × sample_rate` frames per channel, and the consumer holds
at most one such block at a time — but the `maxsize=10` queue may buffer up
to 10 full blocks, so the resident buffered-but-unflushed audio is bounded by
`(10 + 1) ×` the per-segment byte budget
(`segment_duration × sample_rate × channels × 4`), a bound independent of the
total planned session length, rather than by a single segment's budget. -/
theorem recorder_resident_memory_bounded (spseg total ch : ℕ) (s : RecSt)
    (h : RecReachable spseg total s) :
    residentBytes ch s ≤ 11 * segmentBudgetBytes spseg ch := by
  obtain ⟨hq, hlen, hc⟩ := recSession_invariant spseg total s h
  have hsum : s.queued.sum ≤ 10 * spseg := by
    calc s.queued.sum ≤ s.queued.length * spseg := sum_le_length_mul hq
      _ ≤ 10 * spseg := Nat.mul_le_mul_right spseg hlen
  have hcons : s.consuming.getD 0 ≤ spseg := by
    cases hcv : s.consuming with
    | none => simp
    | some b => simpa using hc b hcv
  have hframes : residentFrames s ≤ 11 * spseg := by
    simp only [residentFrames]
    omega
  calc residentBytes ch s = residentFrames s * ch * 4 := rfl
    _ ≤ 11 * spseg * ch * 4 := by
        exact Nat.mul_le_mul_right 4 (Nat.mul_le_mul_right ch hframes)
    _ = 11 * segmentBudgetBytes spseg ch := by
        simp only [segmentBudgetBytes]
        ring

/-- Witness for `recorder_resident_memory_bounded` at the initial state of a
1-hour session with 30-minute segments at 48 kHz stereo. -/
theorem recorder_resident_memory_bounded_witness :
    residentBytes 2 recInit ≤ 11 * segmentBudgetBytes 86400000 2 :=
  recorder_resident_memory_bounded 86400000 172800000 2 recInit
    Relation.ReflTransGen.refl

/-- C6, counterexample: in a 1-hour session with 30-minute segments at 48 kHz
(`samples_per_segment = 86400000`), the capture worker can legally run two
iterations before the consumer dequeues anything (the `maxsize=10` queue
accepts both blocks), reaching a state whose resident buffered audio is two
full segments — 1,382,400,000 bytes for stereo float32, strictly more than
the one-segment budget of 691,200,000 bytes the claim asserts as the bound. -/
theorem resident_memory_exceeds_one_segment_cex :
    RecReachable 86400000 172800000 ⟨172800000, [86400000, 86400000], Option.none⟩ ∧
    segmentBudgetBytes 86400000 2 <
      residentBytes 2 ⟨172800000, [86400000, 86400000], Option.none⟩ := by
  constructor
  · have s1 : RecStep 86400000 172800000 recInit
        ⟨86400000, [86400000], Option.none⟩ := by
      have h := @RecStep.capture 86400000 172800000 recInit
        (by norm_num [recInit]) (by norm_num [recInit])
      simpa [recInit, blockFrames] using h
    have s2 : RecStep 86400000 172800000 ⟨86400000, [86400000], Option.none⟩
        ⟨172800000, [86400000, 86400000], Option.none⟩ := by
      have h := @RecStep.capture 86400000 172800000
        ⟨86400000, [86400000], Option.none⟩ (by norm_num) (by norm_num)
      simpa [blockFrames] using h
    exact Relation.ReflTransGen.tail (Relation.ReflTransGen.tail
      Relation.ReflTransGen.refl s1) s2
  · norm_num [segmentBudgetBytes, residentBytes, residentFrames]

/-- The filter is causal: its output on a prefix is the prefix of its
output. -/
theorem sosfiltAux_take (c : SOSSection) :
    ∀ (x : List ℚ) (z1 z2 : ℚ) (n : ℕ),
      (sosfiltAux c z1 z2 x).take n = sosfiltAux c z1 z2 (x.take n) := by
  intro x
  induction x with
  | nil => intro z1 z2 n; simp [sosfiltAux]
  | cons a xs ih =>
    intro z1 z2 n
    cases n with
    | zero => simp [sosfiltAux]
    | succ n => simp only [sosfiltAux, List.take_succ_cons, ih]

/-- The filter output has the input's length. -/
theorem sosfiltAux_length (c : SOSSection) :
    ∀ (x : List ℚ) (z1 z2 : ℚ), (sosfiltAux c z1 z2 x).length = x.length := by
  intro x
  induction x with
  | nil => intro z1 z2; rfl
  | cons a xs ih => intro z1 z2; simp only [sosfiltAux, List.length_cons, ih]

/-- The chunk splitter yields nothing on an empty signal, whatever fuel. -/
theorem chunksOfF_nil (n fuel : ℕ) : chunksOfF n fuel [] = [] := by
  cases fuel <;> rfl

/-- Unfolding the chunk splitter on a nonempty signal: the first chunk is the
`n`-sample prefix. -/
theorem chunksOf_cons (n : ℕ) (hn : n ≠ 0) (a : ℚ) (xs : List ℚ) :
    chunksOf n (a :: xs) =
      (a :: xs).take n :: chunksOfF n xs.length ((a :: xs).drop n) := by
  simp only [chunksOf, if_neg hn, List.length_cons]
  rfl

/-- C2, amended: because each `sosfilt` call starts from zero state, the
chunked filter agrees with the one-pass filter exactly on the first chunk
(both start from zero state there) whenever that chunk is long enough to be
filtered; beyond the first chunk boundary no state is carried and the outputs
may diverge. -/
theorem chunked_filter_first_chunk (c : SOSSection) (n : ℕ) (x : List ℚ)
    (hn : 100 < n) (hx : 100 < x.length) :
    (emm6ChunkedChannel c n x).take n = (emm6OnePassChannel c x).take n := by
  have hn0 : n ≠ 0 := by omega
  cases x with
  | nil => simp at hx
  | cons a xs =>
    rw [emm6ChunkedChannel, chunksOf_cons n hn0 a xs]
    by_cases hcase : (a :: xs).length ≤ n
    · have htake : (a :: xs).take n = a :: xs := List.take_of_length_le hcase
      have hdrop : (a :: xs).drop n = [] := List.drop_eq_nil_of_le hcase
      rw [htake, hdrop, chunksOfF_nil]
      simp only [List.map_cons, List.map_nil, List.flatten_cons, List.flatten_nil,
        List.append_nil]
      rw [filterChunk, if_pos hx]
      rfl
    · push_neg at hcase
      have hlen_take : ((a :: xs).take n).length = n := by
        rw [List.length_take]
        omega
      simp only [List.map_cons, List.flatten_cons]
      rw [filterChunk, if_pos (by rw [hlen_take]; exact hn)]
      rw [List.take_append_of_le_length (by rw [sosfilt, sosfiltAux_length, hlen_take])]
      rw [show (sosfilt c ((a :: xs).take n)).take n = sosfilt c ((a :: xs).take n) from
        List.take_of_length_le (by rw [sosfilt, sosfiltAux_length, hlen_take])]
      rw [emm6OnePassChannel, sosfilt, sosfilt, sosfiltAux_take]

/-- Witness for `chunked_filter_first_chunk`: a 150-sample constant channel
split into 101-sample chunks agrees with the one-pass output on the whole
first chunk. -/
theorem chunked_filter_first_chunk_witness :
    (emm6ChunkedChannel emm6Sos 101 (List.replicate 150 1)).take 101 =
      (emm6OnePassChannel emm6Sos (List.replicate 150 1)).take 101 :=
  chunked_filter_first_chunk emm6Sos 101 (List.replicate 150 1) (by norm_num)
    (by rw [List.length_replicate]; norm_num)

/-- A constant 101-sample channel. -/
def ones101 : List ℚ := List.replicate 101 1

/-- C2, counterexample: for the 101-sample constant channel filtered with
`chunk_size = 100`, the chunked path splits it into a 100-sample and a
1-sample chunk, both of which fall under the `len(chunk) > 100` guard and
pass through unfiltered, while the one-pass filter attenuates the very first
sample to `b0 ≈ 0.99907`; the outputs differ at index 0 by about `9.25e-4`,
far beyond the claimed `1e-5` equivalence tolerance — and no filter state is
carried between the chunks that would reconcile them. -/
theorem chunked_not_equiv_one_pass_cex :
    (1 : ℚ) / 100000 <
      ((applyEmm6CorrectionChunked emm6Sos 100 [ones101]).headD []).headD 0 -
        (emm6OnePassChannel emm6Sos ones101).headD 0 := by
  have h1 : ((applyEmm6CorrectionChunked emm6Sos 100 [ones101]).headD []).headD 0 = 1 := by
    decide
  have h2 : (emm6OnePassChannel emm6Sos ones101).headD 0 = emm6Sos.b0 * 1 + 0 := by
    show (sosfilt emm6Sos ones101).headD 0 = _
    rw [show ones101 = 1 :: List.replicate 100 1 from rfl]
    simp only [sosfilt, sosfiltAux, List.headD]
  rw [h1, h2]
  norm_num [emm6Sos]

/-- Rows selected into a band are rows of the full spectrogram. -/
theorem bandSelect_rows_sub (f : List ℚ) (S : List (List ℚ)) (lo hi : ℚ) :
    ∀ row ∈ (bandSelect f S lo hi).2, row ∈ S := by
  intro row hrow
  simp only [bandSelect] at hrow
  rcases List.mem_map.mp hrow with ⟨p, hp, rfl⟩
  exact (List.of_mem_zip (List.mem_of_mem_filter hp)).2

/-- On a band whose rows are nonempty and constantly `-100`, the peak search
finds no prominent peak and the fallback global maximum is `-100`. -/
theorem bandPeakCore_const (bf : List ℚ) (br : List (List ℚ)) (hbr : br ≠ [])
    (hrows : ∀ row ∈ br, row ≠ [] ∧ ∀ v ∈ row, v = (-100 : ℚ)) :
    (bandPeakCore bf br).2 = -100 := by
  have hms : ∀ y ∈ br.map listMax, y = (-100 : ℚ) := by
    intro y hy
    rcases List.mem_map.mp hy with ⟨row, hrow, rfl⟩
    exact listMax_all_eq (hrows row hrow).1 (hrows row hrow).2
  have hpeaks : findPeaks (br.map listMax) 3 = [] := by
    unfold findPeaks
    rw [localMaxima_all_eq hms]
    rfl
  have hflat_ne : br.flatten ≠ [] := by
    cases br with
    | nil => exact absurd rfl hbr
    | cons row rest =>
      have hne := (hrows row (List.mem_cons_self row rest)).1
      cases row with
      | nil => exact absurd rfl hne
      | cons v vs => simp [List.flatten_cons]
  have hflat : ∀ v ∈ br.flatten, v = (-100 : ℚ) := by
    intro v hv
    rcases List.mem_flatten.mp hv with ⟨row, hrow, hvrow⟩
    exact (hrows row hrow).2 v hvrow
  simp only [bandPeakCore, hpeaks, List.isEmpty_nil, if_true]
  exact listMax_all_eq hflat_ne hflat

/-- A band with positive element count has at least one row. -/
theorem rows_ne_nil_of_specSize_pos {br : List (List ℚ)} (h : 0 < specSize br) :
    br ≠ [] := by
  intro hnil
  rw [hnil] at h
  simp [specSize] at h

/-- The LFN band level of an all-`-100` spectrogram is `-100`. -/
theorem bandPeakLF_const (f : List ℚ) (S : List (List ℚ))
    (hrows : ∀ row ∈ S, row ≠ [] ∧ ∀ v ∈ row, v = (-100 : ℚ)) :
    (bandPeakLF f S).2 = -100 := by
  simp only [bandPeakLF]
  split
  · rename_i hsz
    exact bandPeakCore_const _ _ (rows_ne_nil_of_specSize_pos hsz)
      (fun row hrow => hrows row (bandSelect_rows_sub f S _ _ row hrow))
  · rfl

/-- The ultrasonic band level of an all-`-100` spectrogram is `-100`. -/
theorem bandPeakHF_const (f : List ℚ) (S : List (List ℚ))
    (hrows : ∀ row ∈ S, row ≠ [] ∧ ∀ v ∈ row, v = (-100 : ℚ)) :
    (bandPeakHF f S).2 = -100 := by
  simp only [bandPeakHF]
  split
  · rename_i hsz
    exact bandPeakCore_const _ _ (rows_ne_nil_of_specSize_pos hsz.2)
      (fun row hrow => hrows row (bandSelect_rows_sub f S _ _ row hrow))
  · rfl

/-- C7: an entirely silent (all-zero) block of at least `SPECTROGRAM_NPERSEG`
samples is analyzed (not skipped), its power spectrogram is identically zero
(a true property of the external spectrogram, taken as a hypothesis), and the
`10 * log10(0 + 1e-10)` conversion puts every dB entry — and therefore each
band's reported peak level — at the floor value `-100` dB. -/
theorem silent_block_reports_floor_db
    (spec : List ℚ → ℚ → List ℚ × List (List ℚ)) (log10 : ℚ → ℚ)
    (lfnThr hfThr sr : ℚ) (audio : List PFloat)
    (hzero : ∀ x ∈ audio.map nanToNum, x = (0 : ℚ))
    (hlen : SPECTROGRAM_NPERSEG ≤ (audio.map nanToNum).length)
    (hlog : log10 dbFloor = -10)
    (hspec : ∀ row ∈ (spec (audio.map nanToNum) sr).2,
      row ≠ [] ∧ ∀ v ∈ row, v = (0 : ℚ)) :
    ∃ lp hp al, analyzeAndPlot spec log10 lfnThr hfThr audio sr =
      .analyzed lp (-100) hp (-100) al := by
  have hmax : maxAbsVal (audio.map nanToNum) = 0 := by
    apply listMax_all_eq
    · intro hnil
      rw [List.map_eq_nil_iff.mp hnil] at hlen
      simp [SPECTROGRAM_NPERSEG] at hlen
    · intro y hy
      rcases List.mem_map.mp hy with ⟨x, hx, rfl⟩
      rw [hzero x hx, abs_zero]
  have hdb : ∀ row ∈ (spec (audio.map nanToNum) sr).2.map
      (List.map fun p => 10 * log10 (p + dbFloor)),
      row ≠ [] ∧ ∀ v ∈ row, v = (-100 : ℚ) := by
    intro row hrow
    rcases List.mem_map.mp hrow with ⟨row0, hrow0, rfl⟩
    obtain ⟨hne0, hval0⟩ := hspec row0 hrow0
    constructor
    · simpa using hne0
    · intro v hv
      rcases List.mem_map.mp hv with ⟨p, hp, rfl⟩
      rw [hval0 p hp, zero_add, hlog]
      norm_num
  simp only [analyzeAndPlot, if_neg (not_lt.mpr hlen), hmax, lt_self_iff_false,
    if_false, bandPeakLF_const _ _ hdb, bandPeakHF_const _ _ hdb]
  exact ⟨_, _, _, rfl⟩

/-- The constant spectrogram collaborator used by the witnesses: frequency
axis `[25]`, power matrix `[[0]]`. -/
def specZero : List ℚ → ℚ → List ℚ × List (List ℚ) := fun _ _ => ([25], [[0]])

/-- The base-10 logarithm collaborator used by the witnesses, pinned to the
single value the theorems consult: `log10 (1e-10) = -10`. -/
def log10Const : ℚ → ℚ := fun _ => -10

/-- A 2048-sample silent block. -/
def zeroAudio : List PFloat := List.replicate 2048 (.finite 0)

/-- Witness for `silent_block_reports_floor_db` on a concrete 2048-sample
silent block. -/
theorem silent_block_reports_floor_db_witness :
    ∃ lp hp al, analyzeAndPlot specZero log10Const 45 50 zeroAudio 44100 =
      .analyzed lp (-100) hp (-100) al := by
  apply silent_block_reports_floor_db
  · intro x hx
    rcases List.mem_map.mp hx with ⟨y, hy, rfl⟩
    rw [List.eq_of_mem_replicate hy]
    rfl
  · rw [List.length_map, show zeroAudio.length = 2048 from by
      rw [zeroAudio, List.length_replicate]]
    norm_num [SPECTROGRAM_NPERSEG]
  · rfl
  · intro row hrow
    simp only [specZero] at hrow
    rcases List.mem_singleton.mp hrow with rfl
    constructor
    · simp
    · intro v hv
      simpa using hv

/-- The per-window alert list carries exactly one LFN event when the LFN
band-max level strictly exceeds its threshold (and none otherwise), and
likewise for the ultrasonic band. -/
theorem windowAlerts_count (lp ld hp hd lfnThr hfThr : ℚ) :
    ((windowAlerts lp ld hp hd lfnThr hfThr).filter
        fun a => decide (a.band = Band.lfn)).length =
      (if lfnThr < ld then 1 else 0) ∧
    ((windowAlerts lp ld hp hd lfnThr hfThr).filter
        fun a => decide (a.band = Band.ultrasonic)).length =
      (if hfThr < hd then 1 else 0) := by
  unfold windowAlerts
  constructor <;> (split <;> split <;> simp)

/-- C1: whenever a window is analyzed (not skipped), the emitted alert list
holds exactly one LFN `AlertEvent` if the LFN band-max level strictly exceeds
the LFN threshold and none otherwise — equality with the threshold fires
nothing — and likewise exactly one ultrasonic event under the ultrasonic
threshold, regardless of how many individual peaks the detector located. -/
theorem alert_iff_band_threshold (spec : List ℚ → ℚ → List ℚ × List (List ℚ))
    (log10 : ℚ → ℚ) (lfnThr hfThr sr : ℚ) (audio : List PFloat)
    (lp ld hp hd : ℚ) (al : List AlertEvent)
    (h : analyzeAndPlot spec log10 lfnThr hfThr audio sr =
      .analyzed lp ld hp hd al) :
    (al.filter fun a => decide (a.band = Band.lfn)).length =
      (if lfnThr < ld then 1 else 0) ∧
    (al.filter fun a => decide (a.band = Band.ultrasonic)).length =
      (if hfThr < hd then 1 else 0) := by
  simp only [analyzeAndPlot] at h
  by_cases hlen : (audio.map nanToNum).length < SPECTROGRAM_NPERSEG
  · rw [if_pos hlen] at h
    cases h
  · rw [if_neg hlen] at h
    injection h with h1 h2 h3 h4 h5
    subst h2
    subst h4
    subst h5
    exact windowAlerts_count _ _ _ _ lfnThr hfThr

/-- Witness for `alert_iff_band_threshold` on a concrete silent window whose
band levels sit at `-100` dB, far below both thresholds: no alerts. -/
theorem alert_iff_band_threshold_witness :
    ((([] : List AlertEvent).filter fun a => decide (a.band = Band.lfn)).length =
      if (45 : ℚ) < -100 then 1 else 0) ∧
    ((([] : List AlertEvent).filter fun a => decide (a.band = Band.ultrasonic)).length =
      if (50 : ℚ) < -100 then 1 else 0) := by
  have hmax : maxAbsVal (zeroAudio.map nanToNum) = 0 := by
    apply listMax_all_eq
    · intro hnil
      have hl := congrArg List.length hnil
      rw [List.length_map, List.length_map, show zeroAudio.length = 2048 from by
        rw [zeroAudio, List.length_replicate]] at hl
      simp at hl
    · intro y hy
      rcases List.mem_map.mp hy with ⟨x, hx, rfl⟩
      rcases List.mem_map.mp hx with ⟨z, hz, rfl⟩
      rw [List.eq_of_mem_replicate hz]
      norm_num [nanToNum]
  have hlen : ¬ (zeroAudio.map nanToNum).length < SPECTROGRAM_NPERSEG := by
    rw [List.length_map, show zeroAudio.length = 2048 from by
      rw [zeroAudio, List.length_replicate]]
    norm_num [SPECTROGRAM_NPERSEG]
  have hconc : analyzeAndPlot specZero log10Const 45 50 zeroAudio 44100 =
      .analyzed 25 (-100) 0 (-100) [] := by
    simp only [analyzeAndPlot, if_neg hlen, hmax, lt_self_iff_false, if_false]
    norm_num [specZero, log10Const, dbFloor, bandPeakLF, bandPeakHF, bandSelect,
      LF_RANGE, HF_RANGE, specSize, bandPeakCore, listMax, findPeaks, localMaxima,
      lmAuxF, flatArgmaxRow, windowAlerts, List.findIdx_cons, List.mem_singleton,
      List.mem_cons, List.not_mem_nil]
  exact alert_iff_band_threshold specZero log10Const 45 50 44100 zeroAudio
    25 (-100) 0 (-100) [] hconc

end LFNToolkit
